import Mathlib

/-!
# Verification of the parl-node wallet chain-synchronization core

A shallow embedding of `src/parl_wallet/src/network_handler.rs`.

Hashes, public keys, compressed/decompressed ciphertext components and
plaintext amounts are modelled as `Nat`.  The persistent wallet storage is a
record of lists; the daemon RPC surface, the cryptographic primitives
(ciphertext decompression, ElGamal trial decryption) and the transport are
modelled as an environment record of (possibly failing) functions, since they
are external collaborators of the core.  Stateful Rust methods become explicit
state-passing functions returning the final storage, the list of wallet events
emitted, and an `Except` result.  Rust loops whose termination depends on
daemon-supplied data take an explicit fuel parameter; exhausting it yields the
dedicated error `Err.outOfFuel`, which no faithful run of the original loops
can reach for sufficient fuel.
-/

namespace ParlWallet

/-- Error kinds surfaced by the network handler core
(`NetworkError` plus the anyhow-wrapped daemon / storage / decryption errors). -/
inductive Err where
  | alreadyRunning
  | notRunning
  | networkMismatch
  | daemon (code : Nat)
  | decrypt (code : Nat)
  | decompress
  | storage
  | outOfFuel
  deriving DecidableEq, Repr

/-- The role of the wallet in a transfer, used to pick the ciphertext handle. -/
inductive Role where
  | sender
  | receiver
  deriving DecidableEq, Repr

/-- A wallet/miner address: public key plus network identity flag. -/
structure Address where
  pubkey : Nat
  mainnet : Bool
  deriving DecidableEq, Repr

/-- An outgoing transfer recorded in a transaction entry. -/
structure TransferOut where
  destination : Nat
  asset : Nat
  amount : Nat
  extraData : Option Nat
  deriving DecidableEq, Repr

/-- An incoming transfer recorded in a transaction entry. -/
structure TransferIn where
  asset : Nat
  amount : Nat
  extraData : Option Nat
  deriving DecidableEq, Repr

/-- The tagged payload of a persisted transaction entry (`EntryData`). -/
inductive EntryData where
  | coinbase (reward : Nat)
  | burn (asset : Nat) (amount : Nat)
  | outgoing (transfers : List TransferOut) (fee : Nat) (nonce : Nat)
  | incoming (source : Nat) (transfers : List TransferIn)
  deriving DecidableEq, Repr

/-- A persisted transaction entry `(tx_hash, topoheight, payload)`. -/
structure TransactionEntry where
  hash : Nat
  topoheight : Nat
  payload : EntryData
  deriving DecidableEq, Repr

/-- A balance ciphertext cache: its compressed form and, when decompression
succeeds, the decompressed ciphertext (`none` models decompression failure). -/
structure CiphertextCache where
  compressed : Nat
  decomp : Option Nat
  deriving DecidableEq, Repr

/-- A stored balance record: cached plaintext plus the authoritative ciphertext. -/
structure Balance where
  amount : Nat
  ciphertext : CiphertextCache
  deriving DecidableEq, Repr

/-- The native asset hash (`PARL_ASSET`). -/
def PARL_ASSET : Nat := 0

/-- Wallet events propagated to the embedding wallet.  `newTransaction`
carries the hash of the serialized entry. -/
inductive Event where
  | online
  | offline
  | newTopoHeight (topoheight : Nat)
  | rescan (startTopoheight : Nat)
  | newAsset (asset : Nat)
  | newTransaction (hash : Nat)
  | balanceChanged (asset : Nat) (balance : Nat)
  deriving DecidableEq, Repr

/-- `true` exactly on `Event.balanceChanged` events. -/
def Event.isBalanceChanged : Event → Bool
  | .balanceChanged _ _ => true
  | _ => false

/-- `true` exactly on `Event.newTransaction` events. -/
def Event.isNewTransaction : Event → Bool
  | .newTransaction _ => true
  | _ => false

/-- The persistent wallet storage (the storage contract of the spec),
keyed lists standing for the key/value trees. -/
structure Storage where
  transactions : List TransactionEntry
  changes : List (Nat × Nat)
  syncedTopoheight : Nat
  topBlockHash : Option Nat
  nonce : Option Nat
  balances : List (Nat × Balance)
  assets : List (Nat × Nat)
  unconfirmed : List ((Nat × Nat) × Nat)
  txCache : Option Nat
  deriving DecidableEq, Repr

namespace Storage

/-- `has_transaction(hash)`. -/
def hasTransaction (st : Storage) (h : Nat) : Bool :=
  st.transactions.any (fun e => e.hash == h)

/-- `save_transaction(hash, entry)`. -/
def saveTransaction (st : Storage) (e : TransactionEntry) : Storage :=
  { st with transactions := e :: st.transactions }

/-- `delete_transaction(hash)`. -/
def deleteTransaction (st : Storage) (h : Nat) : Storage :=
  { st with transactions := st.transactions.filter (fun e => e.hash != h) }

/-- `delete_transactions_above_topoheight(h)`. -/
def deleteTransactionsAboveTopoheight (st : Storage) (h : Nat) : Storage :=
  { st with transactions := st.transactions.filter (fun e => e.topoheight ≤ h) }

/-- `has_topoheight_in_changes(h)`. -/
def hasTopoheightInChanges (st : Storage) (h : Nat) : Bool :=
  st.changes.any (fun c => c.1 == h)

/-- `add_topoheight_to_changes(h, block_hash)`: the changes index is keyed by
topoheight, so an existing entry at the same topoheight is overwritten. -/
def addTopoheightToChanges (st : Storage) (h : Nat) (blockHash : Nat) : Storage :=
  { st with changes := (h, blockHash) :: st.changes.filter (fun c => c.1 != h) }

/-- `delete_changes_above_topoheight(h)`, returning whether any entry was deleted. -/
def deleteChangesAboveTopoheight (st : Storage) (h : Nat) : Bool × Storage :=
  (st.changes.any (fun c => h < c.1),
   { st with changes := st.changes.filter (fun c => c.1 ≤ h) })

/-- Modelled from the spec: `get_highest_topoheight_in_changes_below(h)` of the
storage engine (its code is not part of this repository).  Returns the highest
changes topoheight that is at most `h`, or 0 when none exists; the caller's
`maximum -= 1` step before re-probing shows the bound is inclusive. -/
def getHighestTopoheightInChangesBelow (st : Storage) (h : Nat) : Nat :=
  (st.changes.filter (fun c => c.1 ≤ h)).foldl (fun acc c => max acc c.1) 0

/-- `get_block_hash_for_topoheight(h)` (a failing read is modelled as `none`). -/
def getBlockHashForTopoheight (st : Storage) (h : Nat) : Option Nat :=
  (st.changes.find? (fun c => c.1 == h)).map (fun c => c.2)

/-- `set_synced_topoheight`. -/
def setSyncedTopoheight (st : Storage) (h : Nat) : Storage :=
  { st with syncedTopoheight := h }

/-- `set_top_block_hash`. -/
def setTopBlockHash (st : Storage) (h : Nat) : Storage :=
  { st with topBlockHash := some h }

/-- `set_nonce`. -/
def setNonce (st : Storage) (n : Nat) : Storage :=
  { st with nonce := some n }

/-- `has_any_balance()`. -/
def hasAnyBalance (st : Storage) : Bool :=
  !st.balances.isEmpty

/-- `delete_balances()`. -/
def deleteBalances (st : Storage) : Storage :=
  { st with balances := [] }

/-- `delete_assets()`. -/
def deleteAssets (st : Storage) : Storage :=
  { st with assets := [] }

/-- `contains_asset(asset)`. -/
def containsAsset (st : Storage) (a : Nat) : Bool :=
  st.assets.any (fun x => x.1 == a)

/-- `add_asset(asset, decimals)`. -/
def addAsset (st : Storage) (a : Nat) (decimals : Nat) : Storage :=
  { st with assets := (a, decimals) :: st.assets.filter (fun x => x.1 != a) }

/-- `get_assets()`: the set of known asset hashes. -/
def getAssets (st : Storage) : List Nat :=
  st.assets.map (fun x => x.1)

/-- `get_balance_for(asset)` (a missing record is the `Err` arm in Rust). -/
def getBalanceFor (st : Storage) (a : Nat) : Option Balance :=
  (st.balances.find? (fun x => x.1 == a)).map (fun x => x.2)

/-- `set_balance_for(asset, balance)`. -/
def setBalanceFor (st : Storage) (a : Nat) (b : Balance) : Storage :=
  { st with balances := (a, b) :: st.balances.filter (fun x => x.1 != a) }

/-- `get_unconfirmed_balance_decoded_for(asset, compressed_ciphertext)`. -/
def getUnconfirmedBalanceDecodedFor (st : Storage) (a : Nat) (c : Nat) : Option Nat :=
  (st.unconfirmed.find? (fun x => x.1 == (a, c))).map (fun x => x.2)

/-- `clear_tx_cache()`. -/
def clearTxCache (st : Storage) : Storage :=
  { st with txCache := none }

end Storage

/-- One transfer of a `Transfers` transaction as reported over RPC. -/
structure RPCTransfer where
  destination : Nat
  asset : Nat
  commitment : Nat
  senderHandle : Nat
  receiverHandle : Nat
  extraData : Option Nat
  deriving DecidableEq, Repr

/-- The tagged transaction payload as reported over RPC. -/
inductive RPCTransactionType where
  | burn (asset : Nat) (amount : Nat)
  | transfers (txs : List RPCTransfer)
  deriving DecidableEq, Repr

/-- A transaction of a block as reported over RPC. -/
structure RPCTransaction where
  hash : Nat
  source : Address
  fee : Nat
  nonce : Nat
  data : RPCTransactionType
  deriving DecidableEq, Repr

/-- A `BlockResponse`: the block header plus its transactions.  `topoheight`
is the optional field used by `new_block` events (DAG-orphaned blocks carry
none). -/
structure BlockResponse where
  hash : Nat
  miner : Address
  minerReward : Option Nat
  transactions : List RPCTransaction
  topoheight : Option Nat
  deriving DecidableEq, Repr

/-- The daemon `get_info` response. -/
structure ChainInfo where
  topoheight : Nat
  topBlockHash : Nat
  prunedTopoheight : Option Nat
  mainnet : Bool
  deriving DecidableEq, Repr

/-- The daemon `get_transaction_executor` response. -/
structure TransactionExecutor where
  blockHash : Nat
  blockTopoheight : Nat
  deriving DecidableEq, Repr

/-- A balance version: the balance ciphertext and the previous topoheight of
the per-asset version chain (the fields of `version.consume()` that the
handler uses). -/
structure BalanceVersion where
  balance : CiphertextCache
  previousTopoheight : Option Nat
  deriving DecidableEq, Repr

/-- The daemon `get_balance` response. -/
structure BalanceResult where
  topoheight : Nat
  version : BalanceVersion
  deriving DecidableEq, Repr

/-- The environment of the sync core: the wallet identity, the daemon RPC
surface and the cryptographic primitives, all external collaborators.  Daemon
requests may fail; decompression failures are `none`; `decryptExtraData` is
best-effort. -/
structure Env where
  walletMainnet : Bool
  getInfo : Except Err ChainInfo
  getBlockAtTopoheight : Nat → Except Err BlockResponse
  getBlockWithTxsAtTopoheight : Nat → Except Err BlockResponse
  getNonce : Except Err Nat
  getAccountAssets : Except Err (List Nat)
  getAsset : Nat → Except Err Nat
  getBalance : Nat → Except Err BalanceResult
  getBalanceAtTopoheight : Nat → Nat → Except Err BalanceVersion
  isTxExecutedInBlock : Nat → Nat → Except Err Bool
  getTransactionExecutor : Nat → Except Err TransactionExecutor
  decompressCommitment : Nat → Option Nat
  decompressHandle : Nat → Option Nat
  decryptExtraData : Nat → Nat → Role → Option Nat
  decryptCiphertext : Nat → Nat → Except Err Nat
  decryptBalance : Nat → Except Err Nat

/-- The outcome of a stateful operation: final storage, events emitted (in
order), and the result. -/
structure Out (α : Type) where
  st : Storage
  events : List Event
  res : Except Err α
  deriving Repr

/-- `HashSet::insert` on the changed-asset accumulator (membership set). -/
def insertAsset (a : Nat) (l : List Nat) : List Nat :=
  if a ∈ l then l else l ++ [a]

/-!
## Block Processor (`process_block`)
-/

/-- The transfer scan of `process_block` for one `Transfers` transaction:
walks the transfers, keeps those addressed to or sent by the wallet,
decompresses commitment and handle (a failure skips only that transfer),
best-effort decrypts the extra data, trial-decrypts the amount (a failure
aborts with the error), and accumulates the changed assets and the
incoming/outgoing transfer lists. -/
def scanTransfers (env : Env) (walletPk : Nat) (isOwner : Bool) :
    List RPCTransfer → List Nat → List TransferOut → List TransferIn →
    Except Err (List Nat × List TransferOut × List TransferIn)
  | [], assets, outs, ins => .ok (assets, outs, ins)
  | transfer :: rest, assets, outs, ins =>
    if isOwner || transfer.destination == walletPk then
      match env.decompressCommitment transfer.commitment with
      | none => scanTransfers env walletPk isOwner rest assets outs ins
      | some commitment =>
        match env.decompressHandle
            (if isOwner then transfer.senderHandle else transfer.receiverHandle) with
        | none => scanTransfers env walletPk isOwner rest assets outs ins
        | some handle =>
          match env.decryptCiphertext commitment handle with
          | .error e => .error e
          | .ok amount =>
            if isOwner then
              scanTransfers env walletPk isOwner rest (insertAsset transfer.asset assets)
                (outs ++ [⟨transfer.destination, transfer.asset, amount,
                  match transfer.extraData with
                  | some cipher => env.decryptExtraData cipher handle Role.sender
                  | none => none⟩]) ins
            else
              scanTransfers env walletPk isOwner rest (insertAsset transfer.asset assets) outs
                (ins ++ [⟨transfer.asset, amount,
                  match transfer.extraData with
                  | some cipher => env.decryptExtraData cipher handle Role.receiver
                  | none => none⟩])
    else
      scanTransfers env walletPk isOwner rest assets outs ins

/-- The per-transaction loop of `process_block`: classifies each transaction,
deduplicates against storage, verifies execution (redirecting to the true
executor topoheight, skipping the transaction if even that fails), tracks the
highest owner nonce, persists new entries and marks the scanned topoheight as
changed once per block.  Accumulator: changed assets, whether changes were
stored, highest owner nonce. -/
def processTxs (env : Env) (address : Address) (blockHash : Nat) (topoheight : Nat) :
    List RPCTransaction → Storage → List Event → List Nat → Bool → Option Nat →
    Out (List Nat × Bool × Option Nat)
  | [], st, evs, assets, changesStored, highestNonce =>
    ⟨st, evs, .ok (assets, changesStored, highestNonce)⟩
  | tx :: rest, st, evs, assets, changesStored, highestNonce =>
    let isOwner : Bool := tx.source.pubkey == address.pubkey
    let scanned : Except Err (List Nat × Option EntryData) :=
      match tx.data with
      | .burn asset amount =>
        .ok (assets, if isOwner then some (.burn asset amount) else none)
      | .transfers txs =>
        match scanTransfers env address.pubkey isOwner txs assets [] [] with
        | .error e => .error e
        | .ok (assets2, outs, ins) =>
          .ok (assets2,
            if isOwner then some (.outgoing outs tx.fee tx.nonce)
            else if !ins.isEmpty then some (.incoming tx.source.pubkey ins)
            else none)
    match scanned with
    | .error e => ⟨st, evs, .error e⟩
    | .ok (assets2, none) =>
      processTxs env address blockHash topoheight rest st evs assets2 changesStored highestNonce
    | .ok (assets2, some entryData) =>
      if st.hasTransaction tx.hash then
        processTxs env address blockHash topoheight rest st evs assets2 changesStored highestNonce
      else
        match env.isTxExecutedInBlock tx.hash blockHash with
        | .error e => ⟨st, evs, .error e⟩
        | .ok executed =>
          let txTopoheight : Option Nat :=
            if executed then some topoheight
            else
              match env.getTransactionExecutor tx.hash with
              | .ok executor => some executor.blockTopoheight
              | .error _ => none
          match txTopoheight with
          | none =>
            processTxs env address blockHash topoheight rest st evs assets2 changesStored highestNonce
          | some txTopo =>
            let highestNonce2 : Option Nat :=
              if isOwner && ((highestNonce.map (fun n => decide (n < tx.nonce))).getD true) then
                some tx.nonce
              else highestNonce
            let entry : TransactionEntry := ⟨tx.hash, txTopo, entryData⟩
            let st2 := st.saveTransaction entry
            let st3 := if changesStored then st2 else st2.addTopoheightToChanges topoheight blockHash
            processTxs env address blockHash topoheight rest st3
              (evs ++ [Event.newTransaction tx.hash]) assets2 true highestNonce2

/-- The coinbase phase of `process_block`: when the wallet mined the block and
a reward is present, the native asset joins the changed-asset set; the entry
is persisted, the topoheight marked as changed and `NewTransaction` emitted
only when the coinbase entry was not already stored.  Returns the storage,
events, changed assets and the changes-stored flag. -/
def coinbaseStep (address : Address) (block : BlockResponse) (topoheight : Nat)
    (st : Storage) : Storage × List Event × List Nat × Bool :=
  if block.miner.pubkey == address.pubkey then
    match block.minerReward with
    | some reward =>
      if st.hasTransaction block.hash then
        (st, [], insertAsset PARL_ASSET [], false)
      else
        ((st.saveTransaction ⟨block.hash, topoheight, .coinbase reward⟩).addTopoheightToChanges
           topoheight block.hash,
         [Event.newTransaction block.hash], insertAsset PARL_ASSET [], true)
    | none => (st, [], [], false)
  else (st, [], [], false)

/-- `process_block(address, block, topoheight)`: network identity check,
coinbase handling, transaction scan; returns the changed assets together with
the highest observed owner nonce plus one, or `none` when no change was
marked or no asset changed. -/
def processBlock (env : Env) (address : Address) (block : BlockResponse) (topoheight : Nat)
    (st : Storage) : Out (Option (List Nat × Option Nat)) :=
  if block.miner.mainnet != env.walletMainnet then
    ⟨st, [], .error .networkMismatch⟩
  else
    let start := coinbaseStep address block topoheight st
    let o := processTxs env address block.hash topoheight block.transactions
      start.1 start.2.1 start.2.2.1 start.2.2.2 none
    ⟨o.st, o.events,
      match o.res with
      | .error e => .error e
      | .ok (assetsChanged, changesStored, highestNonce) =>
        if !changesStored || assetsChanged.isEmpty then .ok none
        else .ok (some (assetsChanged, highestNonce.map (fun n => n + 1)))⟩

/-!
## Asset Balance Walker (`get_balance_and_transactions`) and `sync_new_blocks`
-/

/-- The outcome of a balance walk: final storage, events, the updated
processed-topoheight set and highest-nonce cell (both `&mut` in Rust, so they
survive an error), and the result. -/
structure GbtOut where
  st : Storage
  events : List Event
  processed : List Nat
  highestNonce : Option Nat
  res : Except Err Unit
  deriving Repr

/-- The version-chain loop of `get_balance_and_transactions`.  Each iteration
processes the block at the current topoheight unless already processed in this
pass; only when `highestVersion` is true (the tip version) and `balances` is
requested may it store a strictly higher nonce and a changed balance; then it
follows `previous_topoheight` down to the `minTopoheight` floor.  `fuel`
bounds the daemon-driven iteration. -/
def gbtLoop (env : Env) (address : Address) (asset : Nat) (minTopoheight : Nat)
    (balances : Bool) :
    Nat → Bool → Nat → BalanceVersion → List Nat → Option Nat → Storage → List Event →
    GbtOut
  | 0, _, _, _, processed, hn, st, evs => ⟨st, evs, processed, hn, .error .outOfFuel⟩
  | fuel + 1, highestVersion, topoheight, version, processed, hn, st, evs =>
    let balance := version.balance
    let next : Storage → List Event → List Nat → Option Nat → GbtOut :=
      fun st' evs' processed' hn' =>
        match version.previousTopoheight with
        | some previous =>
          if minTopoheight ≥ previous then ⟨st', evs', processed', hn', .ok ()⟩
          else
            match env.getBalanceAtTopoheight asset previous with
            | .error e => ⟨st', evs', processed', hn', .error e⟩
            | .ok version' =>
              gbtLoop env address asset minTopoheight balances fuel false previous version'
                processed' hn' st' evs'
        | none => ⟨st', evs', processed', hn', .ok ()⟩
    if topoheight ∈ processed then
      next st evs processed hn
    else
      let processed1 := topoheight :: processed
      match env.getBlockWithTxsAtTopoheight topoheight with
      | .error e => ⟨st, evs, processed1, hn, .error e⟩
      | .ok response =>
        let o := processBlock env address response topoheight st
        match o.res with
        | .error e => ⟨o.st, evs ++ o.events, processed1, hn, .error e⟩
        | .ok changes =>
          let st1 := o.st
          let evs1 := evs ++ o.events
          match (if highestVersion then (if balances then changes else none) else none) with
          | none => next st1 evs1 processed1 hn
          | some changed =>
            let nonceSeed : Except Err (Option Nat) :=
              if hn.isNone then
                match st1.nonce with
                | none => .error .storage
                | some m => .ok (some m)
              else .ok hn
            match nonceSeed with
            | .error e => ⟨st1, evs1, processed1, hn, .error e⟩
            | .ok hn1 =>
              let nonceToStore : Option Nat :=
                changed.2.filter (fun n => (hn1.map (fun h => decide (h < n))).getD true)
              let stepNonce : Storage × Option Nat :=
                match nonceToStore with
                | some n => (st1.setNonce n, some n)
                | none => (st1, hn1)
              let st2 := stepNonce.1
              let hn2 := stepNonce.2
              let store : Bool :=
                ((st2.getBalanceFor asset).map (fun b => b.ciphertext != balance)).getD true
              if store then
                let plaintext : Except Err Nat :=
                  match st2.getUnconfirmedBalanceDecodedFor asset balance.compressed with
                  | some cached => .ok cached
                  | none =>
                    match balance.decomp with
                    | none => .error .decompress
                    | some ciphertext => env.decryptBalance ciphertext
                match plaintext with
                | .error e => ⟨st2, evs1, processed1, hn2, .error e⟩
                | .ok value =>
                  next (st2.setBalanceFor asset ⟨value, balance⟩)
                    (evs1 ++ [Event.balanceChanged asset value]) processed1 hn2
              else
                next st2 evs1 processed1 hn2

/-- `get_balance_and_transactions(topoheight_processed, address, asset,
min_topoheight, balances, highest_nonce)`. -/
def getBalanceAndTransactions (env : Env) (address : Address) (asset : Nat)
    (minTopoheight : Nat) (balances : Bool) (fuel : Nat)
    (processed : List Nat) (hn : Option Nat) (st : Storage) : GbtOut :=
  match env.getBalance asset with
  | .error e => ⟨st, [], processed, hn, .error e⟩
  | .ok result =>
    if minTopoheight ≥ result.topoheight then ⟨st, [], processed, hn, .ok ()⟩
    else
      gbtLoop env address asset minTopoheight balances fuel true result.topoheight
        result.version processed hn st []

/-- The per-asset loop of `sync_new_blocks`: a failing walk is logged and
swallowed, the loop continues with the remaining assets. -/
def snbLoop (env : Env) (address : Address) (currentTopoheight : Nat) (balances : Bool)
    (fuel : Nat) :
    List Nat → List Nat → Option Nat → Storage → List Event → Out Unit
  | [], _, _, st, evs => ⟨st, evs, .ok ()⟩
  | asset :: rest, processed, hn, st, evs =>
    let o := getBalanceAndTransactions env address asset currentTopoheight balances fuel
      processed hn st
    snbLoop env address currentTopoheight balances fuel rest o.processed o.highestNonce
      o.st (evs ++ o.events)

/-- `sync_new_blocks(address, current_topoheight, balances)`. -/
def syncNewBlocks (env : Env) (address : Address) (currentTopoheight : Nat)
    (balances : Bool) (fuel : Nat) (st : Storage) : Out Unit :=
  snbLoop env address currentTopoheight balances fuel st.getAssets [] none st []

/-!
## Head-State Reconciler (`sync_head_state`)
-/

/-- The asset loop of `sync_head_state`: discover and persist unknown assets
(emitting `NewAsset`), then fetch each asset's latest balance version,
accumulating the `(asset, ciphertext)` map. -/
def headStateAssetLoop (env : Env) :
    List Nat → Storage → List Event → List (Nat × CiphertextCache) →
    Out (List (Nat × CiphertextCache))
  | [], st, evs, acc => ⟨st, evs, .ok acc⟩
  | asset :: rest, st, evs, acc =>
    if st.containsAsset asset then
      match env.getBalance asset with
      | .error e => ⟨st, evs, .error e⟩
      | .ok result =>
        headStateAssetLoop env rest st evs
          ((asset, result.version.balance) :: acc.filter (fun x => x.1 != asset))
    else
      match env.getAsset asset with
      | .error e => ⟨st, evs, .error e⟩
      | .ok decimals =>
        match env.getBalance asset with
        | .error e =>
          ⟨st.addAsset asset decimals, evs ++ [Event.newAsset asset], .error e⟩
        | .ok result =>
          headStateAssetLoop env rest (st.addAsset asset decimals)
            (evs ++ [Event.newAsset asset])
            ((asset, result.version.balance) :: acc.filter (fun x => x.1 != asset))

/-- The apply phase of `sync_head_state`: for each asset whose fresh
ciphertext's compressed form differs from the stored one, resolve a plaintext
(unconfirmed cache first, else trial decryption), emit `BalanceChanged` and
persist the new balance, setting the walk-blocks flag. -/
def applyBalances (env : Env) :
    List (Nat × CiphertextCache) → Storage → List Event → Bool → Out Bool
  | [], st, evs, flag => ⟨st, evs, .ok flag⟩
  | (asset, ciphertext) :: rest, st, evs, flag =>
    let mustUpdate : Bool :=
      match st.getBalanceFor asset with
      | some previous => previous.ciphertext.compressed != ciphertext.compressed
      | none => true
    if mustUpdate then
      let balanceCache := st.getUnconfirmedBalanceDecodedFor asset ciphertext.compressed
      let plaintext : Except Err Nat :=
        match balanceCache with
        | some cached => .ok cached
        | none =>
          match ciphertext.decomp with
          | none => .error .decompress
          | some ct => env.decryptBalance ct
      match plaintext with
      | .error e => ⟨st, evs, .error e⟩
      | .ok value =>
        applyBalances env rest (st.setBalanceFor asset ⟨value, ciphertext⟩)
          (evs ++ [Event.balanceChanged asset value]) true
    else
      applyBalances env rest st evs flag

/-- The write phase of `sync_head_state`: store the resolved nonce when it
differs from the stored one (setting the walk-blocks flag), then apply the
balance changes. -/
def syncHeadStateApply (env : Env) (newNonce : Option Nat)
    (balances : List (Nat × CiphertextCache)) (st1 : Storage) (evs1 : List Event) : Out Bool :=
  match newNonce with
  | some n =>
    if ((st1.nonce.map (fun m => m != n)).getD true) then
      applyBalances env balances (st1.setNonce n) evs1 true
    else
      applyBalances env balances st1 evs1 false
  | none => applyBalances env balances st1 evs1 false

/-- The tail of `sync_head_state` after the nonce has been resolved: resolve
the asset set, run the asset loop, then store the nonce and apply balance
changes. -/
def syncHeadStateRest (env : Env) (assets? : Option (List Nat)) (newNonce : Option Nat)
    (st : Storage) : Out Bool :=
  match (match assets? with | some a => Except.ok a | none => env.getAccountAssets) with
  | .error e => ⟨st, [], .error e⟩
  | .ok assets =>
    let o := headStateAssetLoop env assets st [] []
    match o.res with
    | .error e => ⟨o.st, o.events, .error e⟩
    | .ok balances => syncHeadStateApply env newNonce balances o.st o.events

/-- `sync_head_state(address, assets, nonce, sync_nonce)`.  With no nonce hint
and `sync_nonce` set, the nonce is fetched from the daemon; a failing fetch is
treated as an unregistered account: existing balances and asset metadata are
wiped and the reconciler returns `false` cleanly. -/
def syncHeadState (env : Env) (assets? : Option (List Nat)) (nonce? : Option Nat)
    (syncNonce : Bool) (st : Storage) : Out Bool :=
  if nonce?.isSome then
    syncHeadStateRest env assets? nonce? st
  else if syncNonce then
    match env.getNonce with
    | .ok v => syncHeadStateRest env assets? (some v) st
    | .error _ =>
      if st.hasAnyBalance then
        ⟨st.deleteBalances.deleteAssets, [], .ok false⟩
      else
        ⟨st, [], .ok false⟩
  else
    syncHeadStateRest env assets? none st

/-!
## Checkpoint Locator (`locate_sync_topoheight_and_clean`)
-/

/-- The downward walk over changes markers: probe the highest changes
topoheight at most the current one, stop at 0 (rewind from scratch), at the
pruned floor, or at the first topoheight whose stored hash matches the
daemon's.  `fuel` bounds the walk; since the probe strictly decreases, a fuel
of `m0 + 2` always suffices. -/
def locateLoop (env : Env) (st : Storage) (pruned : Nat) :
    Nat → Nat → Except Err (Nat × Option Nat)
  | 0, _ => .error .outOfFuel
  | fuel + 1, m0 =>
    let m := st.getHighestTopoheightInChangesBelow m0
    if m = 0 then .ok (m, none)
    else if m < pruned then .ok (pruned, none)
    else
      match st.getBlockHashForTopoheight m with
      | none => .error .storage
      | some localHash =>
        match env.getBlockAtTopoheight m with
        | .error e => .error e
        | .ok header =>
          if header.hash = localHash then .ok (m, some localHash)
          else locateLoop env st pruned fuel (m - 1)

/-- Resolve the block hash at the chosen checkpoint: the hash found during
the walk when there is one, else the daemon's hash at that topoheight. -/
def resolveHash (env : Env) (maximum : Nat) : Option Nat → Except Err Nat
  | some h => .ok h
  | none =>
    match env.getBlockAtTopoheight maximum with
    | .error e => .error e
    | .ok response => .ok response.hash

/-- The cleanup of the Checkpoint Locator at the chosen checkpoint: delete
changes (and, when any were deleted, transactions) strictly above it, persist
the new synced point, re-insert the changes marker when missing, and emit
`Rescan` unless this is the first sync. -/
def locateTailApply (st : Storage)
    (daemonTopoheight daemonBlockHash synced maximum blockHash : Nat) :
    Out (Nat × Nat × Nat × Bool) :=
  let cleaned := st.deleteChangesAboveTopoheight maximum
  let st2 := if cleaned.1 then cleaned.2.deleteTransactionsAboveTopoheight maximum
             else cleaned.2
  let st3 := (st2.setSyncedTopoheight maximum).setTopBlockHash blockHash
  let st4 := if st3.hasTopoheightInChanges maximum then st3
             else st3.addTopoheightToChanges maximum blockHash
  ⟨st4, if synced != 0 then [Event.rescan maximum] else [],
    .ok (daemonTopoheight, daemonBlockHash, maximum, true)⟩

/-- The tail of the Checkpoint Locator: run the downward walk from the
starting point, resolve the hash at the chosen maximum, then apply the
cleanup. -/
def locateTail (env : Env) (st : Storage) (daemonTopoheight daemonBlockHash pruned synced : Nat) :
    Out (Nat × Nat × Nat × Bool) :=
  match locateLoop env st pruned (synced + 2) synced with
  | .error e => ⟨st, [], .error e⟩
  | .ok (maximum, found) =>
    match resolveHash env maximum found with
    | .error e => ⟨st, [], .error e⟩
    | .ok blockHash =>
      locateTailApply st daemonTopoheight daemonBlockHash synced maximum blockHash

/-- `locate_sync_topoheight_and_clean()`: query `get_info`, check the network
identity, try the fast paths (already at the daemon's tip; above the daemon's
chain; stored top block hash still valid above the pruned floor), else walk
the changes markers downward and clean everything above the chosen
checkpoint.  Returns `(daemon_topoheight, daemon_block_hash,
wallet_topoheight, sync_back)`. -/
def locateSyncTopoheightAndClean (env : Env) (st : Storage) : Out (Nat × Nat × Nat × Bool) :=
  match env.getInfo with
  | .error e => ⟨st, [], .error e⟩
  | .ok info =>
    if info.mainnet != env.walletMainnet then
      ⟨st, [], .error .networkMismatch⟩
    else
      match st.topBlockHash with
      | some topBlockHash =>
        if info.topoheight = st.syncedTopoheight ∧ info.topBlockHash = topBlockHash then
          ⟨st, [], .ok (info.topoheight, info.topBlockHash, st.syncedTopoheight, false)⟩
        else if info.topoheight < st.syncedTopoheight then
          ⟨st, [], .ok (info.topoheight, info.topBlockHash, 0, true)⟩
        else if info.prunedTopoheight.getD 0 < st.syncedTopoheight then
          match env.getBlockAtTopoheight st.syncedTopoheight with
          | .error e => ⟨st, [], .error e⟩
          | .ok header =>
            if header.hash = topBlockHash then
              ⟨st, [], .ok (info.topoheight, info.topBlockHash, st.syncedTopoheight, false)⟩
            else
              locateTail env st info.topoheight info.topBlockHash
                (info.prunedTopoheight.getD 0) st.syncedTopoheight
        else
          locateTail env st info.topoheight info.topBlockHash
            (info.prunedTopoheight.getD 0) st.syncedTopoheight
      | none =>
        locateTail env st info.topoheight info.topBlockHash
          (info.prunedTopoheight.getD 0) st.syncedTopoheight

/-!
## Sync Supervisor (`sync` and the `block_ordered` handler)
-/

/-- The pushed-block step of `sync`: if the `new_block` event carries a
topoheight, run the Block Processor on it; when it reports changes, suppress a
nonce hint that is at most the stored nonce and reconcile the head state with
the changed-asset filter (without querying the daemon for the nonce).  Returns
the contribution to the walk-blocks flag (`true` when no event was given). -/
def syncEventStep (env : Env) (address : Address) (event : Option BlockResponse)
    (st : Storage) : Out Bool :=
  match event with
  | some block =>
    match block.topoheight with
    | some topoheight =>
      let o := processBlock env address block topoheight st
      match o.res with
      | .error e => ⟨o.st, o.events, .error e⟩
      | .ok none => ⟨o.st, o.events, .ok false⟩
      | .ok (some (assets, nonce0)) =>
        let o2 := syncHeadState env (some assets)
          (match nonce0 with
           | some n => if n ≤ o.st.nonce.getD 0 then none else some n
           | none => none) false o.st
        ⟨o2.st, o.events ++ o2.events, o2.res⟩
    | none => ⟨st, [], .ok false⟩
  | none => ⟨st, [], .ok true⟩

/-- `sync(address, event)`: one full reconciliation pass — locate the
checkpoint and clean, reconcile the head state when a back sync is needed,
process a pushed block, walk the balance-version chains when anything
changed, then persist the daemon's topoheight and top block hash and emit
`NewTopoHeight`. -/
def sync (env : Env) (address : Address) (event : Option BlockResponse) (fuel : Nat)
    (st : Storage) : Out Unit :=
  let o1 := locateSyncTopoheightAndClean env st
  match o1.res with
  | .error e => ⟨o1.st, o1.events, .error e⟩
  | .ok (daemonTopoheight, daemonBlockHash, walletTopoheight, syncBack) =>
    let o2 := if syncBack then syncHeadState env none none true o1.st
              else ⟨o1.st, [], .ok false⟩
    match o2.res with
    | .error e => ⟨o2.st, o1.events ++ o2.events, .error e⟩
    | .ok flag1 =>
      let o3 := syncEventStep env address event o2.st
      match o3.res with
      | .error e => ⟨o3.st, o1.events ++ o2.events ++ o3.events, .error e⟩
      | .ok flag2 =>
        let o4 := if flag1 || flag2 then
                    syncNewBlocks env address walletTopoheight true fuel o3.st
                  else ⟨o3.st, [], .ok ()⟩
        match o4.res with
        | .error e => ⟨o4.st, o1.events ++ o2.events ++ o3.events ++ o4.events, .error e⟩
        | .ok _ =>
          ⟨(o4.st.setSyncedTopoheight daemonTopoheight).setTopBlockHash daemonBlockHash,
            o1.events ++ o2.events ++ o3.events ++ o4.events
              ++ [Event.newTopoHeight daemonTopoheight],
            .ok ()⟩

/-- The storage phase of the `block_ordered` handler: when a hash is stored
locally for the event's topoheight and differs from the event's hash (and the
topoheight is nonzero), delete changes strictly above `topoheight - 1` and
lower the synced point when above; returns the storage and whether a reorg
was detected (so the block must be re-processed). -/
def blockOrderedPhase1 (eventTopoheight eventBlockHash : Nat) (st : Storage) :
    Storage × Bool :=
  match st.getBlockHashForTopoheight eventTopoheight with
  | some hash =>
    if eventTopoheight != 0 && hash != eventBlockHash then
      (if eventTopoheight
          < (st.deleteChangesAboveTopoheight (eventTopoheight - 1)).2.syncedTopoheight then
        (((st.deleteChangesAboveTopoheight (eventTopoheight - 1)).2.setSyncedTopoheight
          eventTopoheight).setTopBlockHash eventBlockHash)
      else (st.deleteChangesAboveTopoheight (eventTopoheight - 1)).2, true)
    else (st, false)
  | none => (st, false)

/-- The `block_ordered` arm of the supervisor: run the storage phase and,
when a reorg was detected, fetch and re-process the newly ordered block,
discarding the changed-asset set it reports. -/
def handleBlockOrdered (env : Env) (address : Address) (eventTopoheight eventBlockHash : Nat)
    (st : Storage) : Out Unit :=
  if (blockOrderedPhase1 eventTopoheight eventBlockHash st).2 then
    match env.getBlockAtTopoheight eventTopoheight with
    | .error e => ⟨(blockOrderedPhase1 eventTopoheight eventBlockHash st).1, [], .error e⟩
    | .ok block =>
      let o := processBlock env address block eventTopoheight
        (blockOrderedPhase1 eventTopoheight eventBlockHash st).1
      ⟨o.st, o.events, o.res.map (fun _ => ())⟩
  else
    ⟨(blockOrderedPhase1 eventTopoheight eventBlockHash st).1, [], .ok ()⟩

/-!
## Lifecycle Controller (`start` / `is_running`)
-/

/-- The sync task handle: whether the spawned task has finished. -/
structure TaskHandle where
  finished : Bool
  deriving DecidableEq, Repr

/-- The mutable lifecycle state of the network handler: the optional task
handle. -/
structure HandlerState where
  task : Option TaskHandle
  deriving DecidableEq, Repr

/-- The transport environment seen by the Lifecycle Controller:
whether the API is online, and the outcome of a reconnect attempt
(a failing reconnect carries a daemon error code). -/
structure LifecycleEnv where
  apiOnline : Bool
  reconnect : Except Nat Bool

/-- `is_running()`: a task handle is present, not finished, and the transport
is online. -/
def isRunning (env : LifecycleEnv) (hs : HandlerState) : Bool :=
  match hs.task with
  | some handle => !handle.finished && env.apiOnline
  | none => false

/-- `start(auto_reconnect)` up to the spawn: fail `AlreadyRunning` when
`is_running()`; reconnect when offline, a failed attempt surfacing as
`NotRunning` and a transport error as a daemon error; on success store a
fresh unfinished task handle and emit `Online`. -/
def start (env : LifecycleEnv) (hs : HandlerState) : HandlerState × List Event × Except Err Unit :=
  if isRunning env hs then
    (hs, [], .error .alreadyRunning)
  else
    match (if env.apiOnline then Except.ok true
           else
             match env.reconnect with
             | .error code => Except.error (Err.daemon code)
             | .ok b => Except.ok b) with
    | .error e => (hs, [], .error e)
    | .ok b =>
      if b then ({ task := some { finished := false } }, [Event.online], .ok ())
      else (hs, [], .error .notRunning)

/-!
## Concrete scenarios

Small closed instances of the environment and storage used to evaluate the
handler on explicit inputs.
-/

/-- The wallet address of the concrete scenarios (public key 1, mainnet). -/
def walletAddr : Address := ⟨1, true⟩

/-- Empty wallet storage. -/
def emptyStorage : Storage := ⟨[], [], 0, none, none, [], [], [], none⟩

/-- A base environment whose every request fails; scenarios override the
fields they exercise. -/
def baseEnv : Env where
  walletMainnet := true
  getInfo := .error (.daemon 99)
  getBlockAtTopoheight := fun _ => .error (.daemon 99)
  getBlockWithTxsAtTopoheight := fun _ => .error (.daemon 99)
  getNonce := .error (.daemon 99)
  getAccountAssets := .error (.daemon 99)
  getAsset := fun _ => .error (.daemon 99)
  getBalance := fun _ => .error (.daemon 99)
  getBalanceAtTopoheight := fun _ _ => .error (.daemon 99)
  isTxExecutedInBlock := fun _ _ => .error (.daemon 99)
  getTransactionExecutor := fun _ => .error (.daemon 99)
  decompressCommitment := fun _ => none
  decompressHandle := fun _ => none
  decryptExtraData := fun _ _ _ => none
  decryptCiphertext := fun _ _ => .error (.decrypt 99)
  decryptBalance := fun _ => .error (.decrypt 99)

/-- Nonce-lowering scenario: wallet synced at 10 with stored nonce 5; the
daemon is at topoheight 12 on a different chain and reports nonce 3. -/
def stNonceLower : Storage :=
  { emptyStorage with
    syncedTopoheight := 10, topBlockHash := some 100, nonce := some 5,
    changes := [(10, 100)] }

/-- Environment of the nonce-lowering scenario. -/
def envNonceLower : Env :=
  { baseEnv with
    getInfo := .ok ⟨12, 200, none, true⟩,
    getBlockAtTopoheight := fun h =>
      if h = 10 then .ok ⟨150, ⟨2, true⟩, none, [], none⟩
      else if h = 0 then .ok ⟨50, ⟨2, true⟩, none, [], none⟩
      else .error (.daemon 1),
    getNonce := .ok 3,
    getAccountAssets := .ok [] }

/-- Reorg scenario: a transaction entry stored at topoheight 10, the changes
index knowing topoheights 5 and 10, wallet synced at 10. -/
def txEntryAt10 : TransactionEntry := ⟨70, 10, .burn 2 5⟩

/-- Storage of the reorg scenario. -/
def stReorg : Storage :=
  { emptyStorage with
    transactions := [txEntryAt10], changes := [(5, 100), (10, 101)],
    syncedTopoheight := 10, topBlockHash := some 101, nonce := some 0 }

/-- Environment of the reorg scenario: the newly ordered block at topoheight 5
has hash 200 and is foreign to the wallet. -/
def envReorg : Env :=
  { baseEnv with
    getBlockAtTopoheight := fun h =>
      if h = 5 then .ok ⟨200, ⟨2, true⟩, none, [], none⟩ else .error (.daemon 1) }

/-- Redirect scenario: an owner burn transaction reported in the block at
topoheight 10 but actually executed at topoheight 12. -/
def redirectedTx : RPCTransaction := ⟨70, ⟨1, true⟩, 3, 4, .burn 2 5⟩

/-- Block of the redirect scenario. -/
def blockRedirect : BlockResponse := ⟨300, ⟨2, true⟩, none, [redirectedTx], none⟩

/-- Environment of the redirect scenario. -/
def envRedirect : Env :=
  { baseEnv with
    isTxExecutedInBlock := fun _ _ => .ok false,
    getTransactionExecutor := fun _ => .ok ⟨301, 12⟩ }

/-- Swallowed-error scenario: two assets (7 and 8) in storage; the walk of
asset 7 fails at `get_balance`, while asset 8 leads to an incoming transfer
in the block at topoheight 5. -/
def stTwoAssets : Storage :=
  { emptyStorage with assets := [(7, 0), (8, 0)], nonce := some 0 }

/-- The incoming transfer of the swallowed-error scenario. -/
def incomingTx : RPCTransaction := ⟨71, ⟨3, true⟩, 1, 0, .transfers [⟨1, 8, 30, 31, 32, none⟩]⟩

/-- Environment of the swallowed-error scenario. -/
def envSwallow : Env :=
  { baseEnv with
    getInfo := .ok ⟨20, 500, none, true⟩,
    getBlockAtTopoheight := fun h =>
      if h = 0 then .ok ⟨60, ⟨2, true⟩, none, [], none⟩ else .error (.daemon 1),
    getBlockWithTxsAtTopoheight := fun h =>
      if h = 5 then .ok ⟨400, ⟨3, true⟩, none, [incomingTx], none⟩ else .error (.daemon 1),
    getNonce := .ok 0,
    getAccountAssets := .ok [],
    getBalance := fun asset =>
      if asset = 8 then .ok ⟨5, ⟨⟨40, some 41⟩, none⟩⟩ else .error (.daemon 7),
    isTxExecutedInBlock := fun _ _ => .ok true,
    decompressCommitment := fun c => some c,
    decompressHandle := fun h => some h,
    decryptCiphertext := fun _ _ => .ok 9,
    decryptBalance := fun _ => .ok 9 }

/-- Unfinished-task lifecycle state. -/
def hsUnfinished : HandlerState := ⟨some ⟨false⟩⟩

/-- Offline transport whose reconnect succeeds. -/
def envOffline : LifecycleEnv := ⟨false, .ok true⟩

/-- Online transport. -/
def envOnline : LifecycleEnv := ⟨true, .ok true⟩

/-- Stored-coinbase scenario: the coinbase entry of block 500 is already in
storage; the wallet mines block 500 again (re-scan) which also carries an
incoming transfer of asset 8. -/
def stCoinbaseStored : Storage :=
  { emptyStorage with transactions := [⟨500, 9, .coinbase 50⟩] }

/-- The foreign transaction of the stored-coinbase scenario. -/
def otherTx : RPCTransaction := ⟨72, ⟨3, true⟩, 1, 0, .transfers [⟨1, 8, 30, 31, 32, none⟩]⟩

/-- Block of the stored-coinbase scenario: mined by the wallet with reward 50. -/
def blockMined : BlockResponse := ⟨500, ⟨1, true⟩, some 50, [otherTx], none⟩

/-- Environment of the stored-coinbase scenario. -/
def envMined : Env :=
  { baseEnv with
    isTxExecutedInBlock := fun _ _ => .ok true,
    decompressCommitment := fun c => some c,
    decompressHandle := fun h => some h,
    decryptCiphertext := fun _ _ => .ok 9 }

/-- Failed-decryption scenario: a foreign block with one transfer to the
wallet whose amount fails trial decryption. -/
def undecryptableTx : RPCTransaction := ⟨73, ⟨3, true⟩, 1, 0, .transfers [⟨1, 8, 30, 31, 32, none⟩]⟩

/-- Block of the failed-decryption scenario. -/
def blockUndecryptable : BlockResponse := ⟨600, ⟨3, true⟩, none, [undecryptableTx], none⟩

/-- Environment of the failed-decryption scenario. -/
def envUndecryptable : Env :=
  { baseEnv with
    decompressCommitment := fun c => some c,
    decompressHandle := fun h => some h,
    decryptCiphertext := fun _ _ => .error (.decrypt 5) }

/-- Storage holding only a stored nonce of 5. -/
def stNonce5 : Storage := { emptyStorage with nonce := some 5 }

/-- The failed-decryption block as a pushed new-block event, ordered at
topoheight 5. -/
def blockUndecryptableEv : BlockResponse := ⟨600, ⟨3, true⟩, none, [undecryptableTx], some 5⟩

/-- Storage of the swallowed-decryption scenario: one known asset 8 and a
stored nonce. -/
def stOneAsset : Storage := { emptyStorage with assets := [(8, 0)], nonce := some 0 }

/-- Environment of the swallowed-decryption scenario: the walk of asset 8
reaches the block at topoheight 5 whose relevant transfer fails trial
decryption, everything else succeeds. -/
def envDecryptSwallow : Env :=
  { baseEnv with
    getInfo := .ok ⟨20, 500, none, true⟩,
    getBlockAtTopoheight := fun h =>
      if h = 0 then .ok ⟨60, ⟨2, true⟩, none, [], none⟩ else .error (.daemon 1),
    getBlockWithTxsAtTopoheight := fun h =>
      if h = 5 then .ok blockUndecryptable else .error (.daemon 1),
    getNonce := .ok 0,
    getAccountAssets := .ok [],
    getBalance := fun asset =>
      if asset = 8 then .ok ⟨5, ⟨⟨40, some 41⟩, none⟩⟩ else .error (.daemon 7),
    decompressCommitment := fun c => some c,
    decompressHandle := fun h => some h,
    decryptCiphertext := fun _ _ => .error (.decrypt 5) }

/-!
## Frame and monotonicity lemmas for the Block Processor
-/

/-- The transaction loop of the Block Processor touches neither the stored
balances nor the stored nonce, and emits only `NewTransaction` events. -/
theorem processTxs_frame (env : Env) (address : Address) (blockHash topoheight : Nat)
    (txs : List RPCTransaction) :
    ∀ (st : Storage) (evs : List Event) (assets : List Nat) (cs : Bool) (hn : Option Nat),
      (processTxs env address blockHash topoheight txs st evs assets cs hn).st.balances
          = st.balances
      ∧ (processTxs env address blockHash topoheight txs st evs assets cs hn).st.nonce
          = st.nonce
      ∧ ∀ ev ∈ (processTxs env address blockHash topoheight txs st evs assets cs hn).events,
          ev ∈ evs ∨ ev.isNewTransaction = true := by
  induction txs with
  | nil =>
    intro st evs assets cs hn
    exact ⟨rfl, rfl, fun ev h => Or.inl h⟩
  | cons tx rest ih =>
    intro st evs assets cs hn
    simp only [processTxs]
    split
    · exact ⟨rfl, rfl, fun ev h => Or.inl h⟩
    · exact ih _ _ _ _ _
    · split
      · exact ih _ _ _ _ _
      · split
        · exact ⟨rfl, rfl, fun ev h => Or.inl h⟩
        · split
          · exact ih _ _ _ _ _
          · split
            · refine ⟨by rw [(ih _ _ _ _ _).1]; simp [Storage.saveTransaction, Storage.addTopoheightToChanges], by rw [(ih _ _ _ _ _).2.1]; simp [Storage.saveTransaction, Storage.addTopoheightToChanges], ?_⟩
              intro ev hmem
              rcases (ih _ _ _ _ _).2.2 ev hmem with h | h
              · rcases List.mem_append.mp h with h | h
                · exact Or.inl h
                · simp only [List.mem_singleton] at h
                  subst h
                  exact Or.inr rfl
              · exact Or.inr h
            · refine ⟨by rw [(ih _ _ _ _ _).1]; simp [Storage.saveTransaction, Storage.addTopoheightToChanges], by rw [(ih _ _ _ _ _).2.1]; simp [Storage.saveTransaction, Storage.addTopoheightToChanges], ?_⟩
              intro ev hmem
              rcases (ih _ _ _ _ _).2.2 ev hmem with h | h
              · rcases List.mem_append.mp h with h | h
                · exact Or.inl h
                · simp only [List.mem_singleton] at h
                  subst h
                  exact Or.inr rfl
              · exact Or.inr h

/-- A stored entry makes `has_transaction` true at its hash. -/
theorem Storage.hasTransaction_of_mem {st : Storage} {e : TransactionEntry}
    (hm : e ∈ st.transactions) : st.hasTransaction e.hash = true := by
  simp only [Storage.hasTransaction, List.any_eq_true]
  exact ⟨e, hm, by simp⟩

/-- The coinbase phase touches neither balances nor nonce and emits only
`NewTransaction`. -/
theorem coinbaseStep_frame (address : Address) (block : BlockResponse) (topoheight : Nat)
    (st : Storage) :
    (coinbaseStep address block topoheight st).1.balances = st.balances
    ∧ (coinbaseStep address block topoheight st).1.nonce = st.nonce
    ∧ ∀ ev ∈ (coinbaseStep address block topoheight st).2.1, ev.isNewTransaction = true := by
  unfold coinbaseStep
  split
  · split
    · split
      · exact ⟨rfl, rfl, by simp⟩
      · refine ⟨rfl, rfl, ?_⟩
        intro ev hev
        simp only [List.mem_singleton] at hev
        subst hev
        rfl
    · exact ⟨rfl, rfl, by simp⟩
  · exact ⟨rfl, rfl, by simp⟩

/-- The Block Processor touches neither the stored balances nor the stored
nonce, and emits only `NewTransaction` events. -/
theorem processBlock_frame (env : Env) (address : Address) (block : BlockResponse)
    (topoheight : Nat) (st : Storage) :
    (processBlock env address block topoheight st).st.balances = st.balances
    ∧ (processBlock env address block topoheight st).st.nonce = st.nonce
    ∧ ∀ ev ∈ (processBlock env address block topoheight st).events,
        ev.isNewTransaction = true := by
  unfold processBlock
  split
  · exact ⟨rfl, rfl, by simp⟩
  · have hfr := coinbaseStep_frame address block topoheight st
    have hptx := processTxs_frame env address block.hash topoheight block.transactions
      (coinbaseStep address block topoheight st).1
      (coinbaseStep address block topoheight st).2.1
      (coinbaseStep address block topoheight st).2.2.1
      (coinbaseStep address block topoheight st).2.2.2 none
    refine ⟨hptx.1.trans hfr.1, hptx.2.1.trans hfr.2.1, ?_⟩
    intro ev hev
    rcases hptx.2.2 ev hev with h | h
    · exact hfr.2.2 ev h
    · exact h

/-- The transaction loop only adds transaction entries. -/
theorem processTxs_transactions_mono (env : Env) (address : Address)
    (blockHash topoheight : Nat) (txs : List RPCTransaction) :
    ∀ (st : Storage) (evs : List Event) (assets : List Nat) (cs : Bool) (hn : Option Nat)
      (e : TransactionEntry), e ∈ st.transactions →
      e ∈ (processTxs env address blockHash topoheight txs st evs assets cs hn).st.transactions := by
  induction txs with
  | nil => intro st evs assets cs hn e he; exact he
  | cons tx rest ih =>
    intro st evs assets cs hn e he
    simp only [processTxs]
    split
    · exact he
    · exact ih _ _ _ _ _ _ he
    · split
      · exact ih _ _ _ _ _ _ he
      · split
        · exact he
        · split
          · exact ih _ _ _ _ _ _ he
          · split
            · exact ih _ _ _ _ _ _ (List.mem_cons_of_mem _ he)
            · exact ih _ _ _ _ _ _ (List.mem_cons_of_mem _ he)

/-- The coinbase phase only adds transaction entries. -/
theorem coinbaseStep_transactions_mono (address : Address) (block : BlockResponse)
    (topoheight : Nat) (st : Storage) (e : TransactionEntry) (he : e ∈ st.transactions) :
    e ∈ (coinbaseStep address block topoheight st).1.transactions := by
  unfold coinbaseStep
  split
  · split
    · split
      · exact he
      · exact List.mem_cons_of_mem _ he
    · exact he
  · exact he

/-- The Block Processor only adds transaction entries. -/
theorem processBlock_transactions_mono (env : Env) (address : Address) (block : BlockResponse)
    (topoheight : Nat) (st : Storage) (e : TransactionEntry) (he : e ∈ st.transactions) :
    e ∈ (processBlock env address block topoheight st).st.transactions := by
  unfold processBlock
  split
  · exact he
  · exact processTxs_transactions_mono env address block.hash topoheight block.transactions
      _ _ _ _ none e (coinbaseStep_transactions_mono address block topoheight st e he)

/-- The coinbase phase adds a changes entry only at the scanned topoheight and
only together with a newly persisted transaction entry. -/
theorem coinbaseStep_changes_backed (address : Address) (block : BlockResponse)
    (topoheight : Nat) (st : Storage) :
    ∀ c ∈ (coinbaseStep address block topoheight st).1.changes,
      c ∈ st.changes ∨ (c.1 = topoheight ∧
        ∃ e, e ∈ (coinbaseStep address block topoheight st).1.transactions
          ∧ e ∉ st.transactions) := by
  unfold coinbaseStep
  split
  · split
    · rename_i reward hreward
      split
      · intro c hc
        exact Or.inl hc
      · rename_i hstored
        intro c hc
        simp only [Storage.addTopoheightToChanges, Storage.saveTransaction,
          List.mem_cons] at hc
        rcases hc with hc | hc
        · refine Or.inr ⟨by rw [hc], ⟨block.hash, topoheight, .coinbase reward⟩, ?_, ?_⟩
          · simp [Storage.addTopoheightToChanges, Storage.saveTransaction]
          · intro hmem
            exact hstored (Storage.hasTransaction_of_mem hmem)
        · exact Or.inl (List.mem_of_mem_filter hc)
    · intro c hc
      exact Or.inl hc
  · intro c hc
    exact Or.inl hc

/-- The transaction loop adds changes entries only at the scanned topoheight
and only together with a newly persisted transaction entry (relative to a
baseline storage `st0`). -/
theorem processTxs_changes_backed (env : Env) (address : Address)
    (blockHash topoheight : Nat) (txs : List RPCTransaction) :
    ∀ (st0 st : Storage) (evs : List Event) (assets : List Nat) (cs : Bool) (hn : Option Nat),
      (∀ e ∈ st0.transactions, e ∈ st.transactions) →
      (∀ c ∈ st.changes, c ∈ st0.changes ∨ (c.1 = topoheight ∧
          ∃ e, e ∈ st.transactions ∧ e ∉ st0.transactions)) →
      ∀ c ∈ (processTxs env address blockHash topoheight txs st evs assets cs hn).st.changes,
        c ∈ st0.changes ∨ (c.1 = topoheight ∧
          ∃ e, e ∈ (processTxs env address blockHash topoheight txs st evs assets cs hn).st.transactions
            ∧ e ∉ st0.transactions) := by
  induction txs with
  | nil =>
    intro st0 st evs assets cs hn hmono hinv c hc
    exact hinv c hc
  | cons tx rest ih =>
    intro st0 st evs assets cs hn hmono hinv
    simp only [processTxs]
    split
    · exact hinv
    · exact ih st0 st _ _ _ _ hmono hinv
    · rename_i assets2 entryData heqScan
      split
      · exact ih st0 st _ _ _ _ hmono hinv
      · rename_i hstored
        split
        · exact hinv
        · split
          · exact ih st0 st _ _ _ _ hmono hinv
          · rename_i txTopo heqTopo
            split
            · refine ih st0 _ _ _ _ _ ?_ ?_
              · intro e he
                exact List.mem_cons_of_mem _ (hmono e he)
              · intro c hc
                rcases hinv c hc with h | ⟨h1, e, h2, h3⟩
                · exact Or.inl h
                · exact Or.inr ⟨h1, e, List.mem_cons_of_mem _ h2, h3⟩
            · refine ih st0 _ _ _ _ _ ?_ ?_
              · intro e he
                exact List.mem_cons_of_mem _ (hmono e he)
              · intro c hc
                simp only [Storage.addTopoheightToChanges, Storage.saveTransaction,
                  List.mem_cons] at hc
                rcases hc with hc | hc
                · refine Or.inr ⟨by rw [hc], ⟨tx.hash, txTopo, entryData⟩, ?_, ?_⟩
                  · simp [Storage.addTopoheightToChanges, Storage.saveTransaction]
                  · intro hmem
                    exact hstored (Storage.hasTransaction_of_mem (hmono _ hmem))
                · rcases hinv c (List.mem_of_mem_filter hc) with h | ⟨h1, e, h2, h3⟩
                  · exact Or.inl h
                  · exact Or.inr ⟨h1, e, List.mem_cons_of_mem _ h2, h3⟩

/-- The Block Processor adds changes entries only at the scanned topoheight,
and any changes entry it adds comes with at least one transaction entry newly
persisted in the same call (possibly stored at a different topoheight). -/
theorem processBlock_changes_backed (env : Env) (address : Address) (block : BlockResponse)
    (topoheight : Nat) (st : Storage) :
    ∀ c ∈ (processBlock env address block topoheight st).st.changes,
      c ∈ st.changes ∨ (c.1 = topoheight ∧
        ∃ e, e ∈ (processBlock env address block topoheight st).st.transactions
          ∧ e ∉ st.transactions) := by
  unfold processBlock
  split
  · intro c hc
    exact Or.inl hc
  · intro c hc
    refine processTxs_changes_backed env address block.hash topoheight block.transactions
      st (coinbaseStep address block topoheight st).1 _ _ _ none
      (fun e he => coinbaseStep_transactions_mono address block topoheight st e he)
      (coinbaseStep_changes_backed address block topoheight st) c hc

/-- `insertAsset` preserves membership. -/
theorem insertAsset_mono {a b : Nat} {l : List Nat} (h : a ∈ l) : a ∈ insertAsset b l := by
  unfold insertAsset
  split
  · exact h
  · exact List.mem_append.mpr (Or.inl h)

/-- `insertAsset` contains the inserted element. -/
theorem insertAsset_self (b : Nat) (l : List Nat) : b ∈ insertAsset b l := by
  unfold insertAsset
  split
  · assumption
  · exact List.mem_append.mpr (Or.inr (List.mem_singleton.mpr rfl))

/-- The transfer scan only grows the changed-asset set. -/
theorem scanTransfers_assets_mono (env : Env) (walletPk : Nat) (isOwner : Bool)
    (ts : List RPCTransfer) :
    ∀ (assets : List Nat) (outs : List TransferOut) (ins : List TransferIn)
      (r : List Nat × List TransferOut × List TransferIn),
      scanTransfers env walletPk isOwner ts assets outs ins = .ok r →
      ∀ a ∈ assets, a ∈ r.1 := by
  induction ts with
  | nil =>
    intro assets outs ins r h a ha
    cases h
    exact ha
  | cons t rest ih =>
    intro assets outs ins r h a ha
    rw [scanTransfers] at h
    split at h
    · split at h
      · exact ih _ _ _ _ h a ha
      · split at h
        · exact ih _ _ _ _ h a ha
        · split at h
          · cases h
          · split at h
            · exact ih _ _ _ _ h a (insertAsset_mono ha)
            · exact ih _ _ _ _ h a (insertAsset_mono ha)
    · exact ih _ _ _ _ h a ha

/-- The transaction loop only grows the changed-asset set. -/
theorem processTxs_assets_mono (env : Env) (address : Address)
    (blockHash topoheight : Nat) (txs : List RPCTransaction) :
    ∀ (st : Storage) (evs : List Event) (assets : List Nat) (cs : Bool) (hn : Option Nat)
      (r : List Nat × Bool × Option Nat),
      (processTxs env address blockHash topoheight txs st evs assets cs hn).res = .ok r →
      ∀ a ∈ assets, a ∈ r.1 := by
  induction txs with
  | nil =>
    intro st evs assets cs hn r h a ha
    cases h
    exact ha
  | cons tx rest ih =>
    intro st evs assets cs hn r h a ha
    simp only [processTxs] at h
    split at h
    · cases h
    · rename_i assets2 heq
      have hstep : a ∈ assets2 := by
        split at heq
        · simp only [Except.ok.injEq, Prod.mk.injEq] at heq
          rcases heq with ⟨h1, h2⟩
          cases h1
          exact ha
        · split at heq
          · simp at heq
          · rename_i as2 outs2 ins2 hsc
            simp only [Except.ok.injEq, Prod.mk.injEq] at heq
            rcases heq with ⟨h1, h2⟩
            cases h1
            exact scanTransfers_assets_mono env address.pubkey _ _ _ _ _ _ hsc a ha
      exact ih _ _ _ _ _ _ h a hstep
    · rename_i assets2 entryData heq
      have hstep : a ∈ assets2 := by
        split at heq
        · simp only [Except.ok.injEq, Prod.mk.injEq] at heq
          rcases heq with ⟨h1, h2⟩
          cases h1
          exact ha
        · split at heq
          · simp at heq
          · rename_i as2 outs2 ins2 hsc
            simp only [Except.ok.injEq, Prod.mk.injEq] at heq
            rcases heq with ⟨h1, h2⟩
            cases h1
            exact scanTransfers_assets_mono env address.pubkey _ _ _ _ _ _ hsc a ha
      split at h
      · exact ih _ _ _ _ _ _ h a hstep
      · split at h
        · cases h
        · split at h
          · exact ih _ _ _ _ _ _ h a hstep
          · split at h
            · exact ih _ _ _ _ _ _ h a hstep
            · exact ih _ _ _ _ _ _ h a hstep

/-- The asset loop of the Head-State Reconciler leaves the stored nonce and
balances unchanged. -/
theorem headStateAssetLoop_frame (env : Env) (l : List Nat) :
    ∀ (st : Storage) (evs : List Event) (acc : List (Nat × CiphertextCache)),
      (headStateAssetLoop env l st evs acc).st.nonce = st.nonce
      ∧ (headStateAssetLoop env l st evs acc).st.balances = st.balances := by
  induction l with
  | nil =>
    intro st evs acc
    exact ⟨rfl, rfl⟩
  | cons asset rest ih =>
    intro st evs acc
    simp only [headStateAssetLoop]
    split
    · split
      · exact ⟨rfl, rfl⟩
      · exact ih _ _ _
    · split
      · exact ⟨rfl, rfl⟩
      · split
        · exact ⟨rfl, rfl⟩
        · exact ih _ _ _

/-- The apply phase of the Head-State Reconciler leaves the stored nonce
unchanged. -/
theorem applyBalances_nonce (env : Env) (l : List (Nat × CiphertextCache)) :
    ∀ (st : Storage) (evs : List Event) (flag : Bool),
      (applyBalances env l st evs flag).st.nonce = st.nonce := by
  induction l with
  | nil =>
    intro st evs flag
    rfl
  | cons p rest ih =>
    intro st evs flag
    simp only [applyBalances]
    split
    · split
      · rfl
      · exact ih _ _ _
    · exact ih _ _ _

/-- The per-asset loop of `sync_new_blocks` never surfaces an error. -/
theorem snbLoop_ok (env : Env) (address : Address) (ct : Nat) (bal : Bool) (fuel : Nat)
    (l : List Nat) :
    ∀ (processed : List Nat) (hn : Option Nat) (st : Storage) (evs : List Event),
      (snbLoop env address ct bal fuel l processed hn st evs).res = .ok () := by
  induction l with
  | nil =>
    intro processed hn st evs
    rfl
  | cons a rest ih =>
    intro processed hn st evs
    simp only [snbLoop]
    exact ih _ _ _ _

/-- The tail of the Checkpoint Locator passes the daemon topoheight and hash
through unchanged. -/
theorem locateTail_daemon (env : Env) (st : Storage) (dt dh pruned synced : Nat)
    (r : Nat × Nat × Nat × Bool)
    (h : (locateTail env st dt dh pruned synced).res = .ok r) :
    r.1 = dt ∧ r.2.1 = dh := by
  unfold locateTail at h
  split at h
  · simp at h
  · split at h
    · simp at h
    · simp only [locateTailApply] at h
      cases h
      exact ⟨rfl, rfl⟩

/-- On success the Checkpoint Locator returns exactly the daemon topoheight
and top block hash that `get_info` reported. -/
theorem locate_daemon (env : Env) (st : Storage) (info : ChainInfo)
    (hinfo : env.getInfo = .ok info) (r : Nat × Nat × Nat × Bool)
    (h : (locateSyncTopoheightAndClean env st).res = .ok r) :
    r.1 = info.topoheight ∧ r.2.1 = info.topBlockHash := by
  unfold locateSyncTopoheightAndClean at h
  split at h
  · rename_i e heq
    rw [hinfo] at heq
    cases heq
  · rename_i info' heq
    rw [hinfo] at heq
    injection heq with heq
    subst heq
    split at h
    · simp at h
    · split at h
      · split at h
        · cases h
          exact ⟨rfl, rfl⟩
        · split at h
          · cases h
            exact ⟨rfl, rfl⟩
          · split at h
            · split at h
              · simp at h
              · split at h
                · cases h
                  exact ⟨rfl, rfl⟩
                · exact locateTail_daemon _ _ _ _ _ _ _ h
            · exact locateTail_daemon _ _ _ _ _ _ _ h
      · exact locateTail_daemon _ _ _ _ _ _ _ h

/-- Iterations of the balance-version walk that are not the tip version leave
the stored balances and stored nonce unchanged and emit only `NewTransaction`
events (besides the ones already accumulated). -/
theorem gbtLoop_frame (env : Env) (address : Address) (asset minT : Nat) (bal : Bool) :
    ∀ (fuel topo : Nat) (version : BalanceVersion) (processed : List Nat) (hn : Option Nat)
      (st : Storage) (evs : List Event),
      (gbtLoop env address asset minT bal fuel false topo version processed hn st evs).st.balances
        = st.balances
      ∧ (gbtLoop env address asset minT bal fuel false topo version processed hn st evs).st.nonce
        = st.nonce
      ∧ ∀ ev ∈ (gbtLoop env address asset minT bal fuel false topo version processed hn st evs).events,
          ev ∈ evs ∨ ev.isNewTransaction = true := by
  intro fuel
  induction fuel with
  | zero =>
    intro topo version processed hn st evs
    exact ⟨rfl, rfl, fun ev h => Or.inl h⟩
  | succ fuel ih =>
    intro topo version processed hn st evs
    simp only [gbtLoop]
    split
    · split
      · split
        · exact ⟨rfl, rfl, fun ev h => Or.inl h⟩
        · split
          · exact ⟨rfl, rfl, fun ev h => Or.inl h⟩
          · exact ih _ _ _ _ _ _
      · exact ⟨rfl, rfl, fun ev h => Or.inl h⟩
    · split
      · exact ⟨rfl, rfl, fun ev h => Or.inl h⟩
      · rename_i response hresp
        have hfr := processBlock_frame env address response topo st
        have hprop : ∀ ev ∈ evs ++ (processBlock env address response topo st).events,
            ev ∈ evs ∨ ev.isNewTransaction = true := by
          intro ev hev
          rcases List.mem_append.mp hev with h | h
          · exact Or.inl h
          · exact Or.inr (hfr.2.2 ev h)
        split
        · exact ⟨hfr.1, hfr.2.1, hprop⟩
        · split
          · split
            · split
              · exact ⟨hfr.1, hfr.2.1, hprop⟩
              · split
                · exact ⟨hfr.1, hfr.2.1, hprop⟩
                · rcases ih _ _ _ _ (processBlock env address response topo st).st
                    (evs ++ (processBlock env address response topo st).events) with
                    ⟨hb, hnn, hevs⟩
                  refine ⟨hb.trans hfr.1, hnn.trans hfr.2.1, ?_⟩
                  intro ev hev
                  rcases hevs ev hev with h | h
                  · exact hprop ev h
                  · exact Or.inr h
            · exact ⟨hfr.1, hfr.2.1, hprop⟩
          · rename_i heqc
            simp at heqc

/-- With a resolved nonce `n`, a successful head-state reconciliation always
leaves exactly `n` in storage, whatever the previously stored nonce was. -/
theorem syncHeadStateApply_nonce (env : Env) (n : Nat)
    (balances : List (Nat × CiphertextCache)) (st1 : Storage) (evs1 : List Event) :
    (syncHeadStateApply env (some n) balances st1 evs1).st.nonce = some n := by
  unfold syncHeadStateApply
  split
  · rename_i m heq
    injection heq with heq
    subst heq
    split
    · rw [applyBalances_nonce]
      rfl
    · rename_i hcond
      rw [applyBalances_nonce]
      rcases hsn : st1.nonce with _ | m2
      · rw [hsn] at hcond
        simp at hcond
      · rw [hsn] at hcond
        simp at hcond
        rw [hcond]
  · rename_i heq
    cases heq

/-- With a resolved nonce `n`, a successful run of the Head-State Reconciler
tail leaves exactly `n` in storage, whatever the previously stored nonce. -/
theorem syncHeadStateRest_nonce (env : Env) (assets? : Option (List Nat)) (n : Nat)
    (st : Storage) (flag : Bool)
    (hok : (syncHeadStateRest env assets? (some n) st).res = .ok flag) :
    (syncHeadStateRest env assets? (some n) st).st.nonce = some n := by
  simp only [syncHeadStateRest] at hok ⊢
  revert hok
  split
  · intro hok
    simp at hok
  · split
    · intro hok
      simp at hok
    · intro hok
      exact syncHeadStateApply_nonce env n _ _ _

/-- The storage phase of the `block_ordered` handler touches neither
balances, nonce nor transactions. -/
theorem blockOrderedPhase1_frame (r bh : Nat) (st : Storage) :
    (blockOrderedPhase1 r bh st).1.balances = st.balances
    ∧ (blockOrderedPhase1 r bh st).1.nonce = st.nonce
    ∧ (blockOrderedPhase1 r bh st).1.transactions = st.transactions := by
  unfold blockOrderedPhase1
  split
  · split
    · split
      · exact ⟨rfl, rfl, rfl⟩
      · exact ⟨rfl, rfl, rfl⟩
    · exact ⟨rfl, rfl, rfl⟩
  · exact ⟨rfl, rfl, rfl⟩

/-- Under a detected reorg, the storage phase deletes every changes entry
above `r - 1` and reports that the block must be re-processed. -/
theorem blockOrderedPhase1_changes (r bh : Nat) (st : Storage) (hsh : Nat)
    (hfound : st.getBlockHashForTopoheight r = some hsh)
    (hcond : (r != 0 && hsh != bh) = true) :
    (∀ c ∈ (blockOrderedPhase1 r bh st).1.changes, c.1 ≤ r - 1)
    ∧ (blockOrderedPhase1 r bh st).2 = true := by
  unfold blockOrderedPhase1
  split
  · rename_i hash heq
    rw [hfound] at heq
    injection heq with heq
    subst heq
    rw [if_pos hcond]
    constructor
    · split
      · intro c hc
        simp only [Storage.setTopBlockHash, Storage.setSyncedTopoheight,
          Storage.deleteChangesAboveTopoheight, List.mem_filter] at hc
        exact of_decide_eq_true hc.2
      · intro c hc
        simp only [Storage.deleteChangesAboveTopoheight, List.mem_filter] at hc
        exact of_decide_eq_true hc.2
    · rfl
  · rename_i heq
    rw [hfound] at heq
    cases heq

/-!
## Claims
-/

/-- C1 (amended): the nonce is not monotone.  The Head-State Reconciler
overwrites the stored nonce with any resolved nonce that merely differs from
it — including a strictly smaller one: on success with a resolved nonce `n`,
the stored nonce afterwards is exactly `n`, whatever was stored before.
(Monotonicity does hold for the suppressed hints in `sync` and for the
walker's strictly-greater-only writes, but not for the reconciler.) -/
theorem c1_head_state_overwrites_nonce (env : Env) (assets? : Option (List Nat))
    (n : Nat) (syncNonce : Bool) (st : Storage) (flag : Bool)
    (hok : (syncHeadState env assets? (some n) syncNonce st).res = .ok flag) :
    (syncHeadState env assets? (some n) syncNonce st).st.nonce = some n := by
  have hdef : syncHeadState env assets? (some n) syncNonce st
      = syncHeadStateRest env assets? (some n) st := rfl
  rw [hdef] at hok ⊢
  exact syncHeadStateRest_nonce env assets? n st flag hok

/-- C1 witness: reconciling with nonce hint 3 over a stored nonce of 5
succeeds and stores 3. -/
theorem c1_head_state_overwrites_nonce_witness :
    stNonce5.nonce = some 5
    ∧ (syncHeadState baseEnv (some []) (some 3) false stNonce5).res = .ok true
    ∧ (syncHeadState baseEnv (some []) (some 3) false stNonce5).st.nonce = some 3 :=
  ⟨rfl, rfl, c1_head_state_overwrites_nonce baseEnv (some []) 3 false stNonce5 true rfl⟩

/-- C1 counterexample: a fully successful `sync` pass (daemon on another
chain forces a sync-back; the daemon reports nonce 3; the nonce fetch
succeeds, so no unregistered-account wipe happens) lowers the stored nonce
from 5 to 3. -/
theorem c1_counterexample :
    stNonceLower.nonce = some 5
    ∧ envNonceLower.getNonce = .ok 3
    ∧ (sync envNonceLower walletAddr none 5 stNonceLower).res = .ok ()
    ∧ (sync envNonceLower walletAddr none 5 stNonceLower).st.nonce = some 3 :=
  ⟨rfl, rfl, rfl, rfl⟩

/-- C5 (amended): a daemon failure inside an asset's balance-version walk
does not propagate out of the pass: `sync_new_blocks` logs and swallows each
asset's error and continues with the remaining assets, so it always returns
success. -/
theorem c5_sync_new_blocks_swallows (env : Env) (address : Address)
    (currentTopoheight : Nat) (balances : Bool) (fuel : Nat) (st : Storage) :
    (syncNewBlocks env address currentTopoheight balances fuel st).res = .ok () :=
  snbLoop_ok env address currentTopoheight balances fuel st.getAssets [] none st []

/-- C5 counterexample: asset 7's `get_balance` fails, yet the enclosing
`sync` returns success and the remaining asset 8 is synced — its incoming
transaction is persisted. -/
theorem c5_counterexample :
    envSwallow.getBalance 7 = .error (.daemon 7)
    ∧ (sync envSwallow walletAddr none 5 stTwoAssets).res = .ok ()
    ∧ (⟨71, 5, .incoming 3 [⟨8, 9, none⟩]⟩ : TransactionEntry)
        ∈ (sync envSwallow walletAddr none 5 stTwoAssets).st.transactions := by
  refine ⟨rfl, rfl, ?_⟩
  have hts : (sync envSwallow walletAddr none 5 stTwoAssets).st.transactions
      = [⟨71, 5, .incoming 3 [⟨8, 9, none⟩]⟩] := rfl
  rw [hts]
  exact List.mem_singleton.mpr rfl

/-- C6 (amended): `start` fails with `AlreadyRunning` precisely when
`is_running()` holds, which requires a present unfinished task AND an online
transport; in that case it changes nothing.  An unfinished task with an
offline transport does not block `start`. -/
theorem c6_start_already_running_iff (env : LifecycleEnv) (hs : HandlerState) :
    ((start env hs).2.2 = .error .alreadyRunning ↔ isRunning env hs = true)
    ∧ (isRunning env hs = true → start env hs = (hs, [], .error .alreadyRunning)) := by
  constructor
  · constructor
    · intro h
      by_cases hr : isRunning env hs = true
      · exact hr
      · exfalso
        unfold start at h
        rw [if_neg hr] at h
        split at h
        · rename_i e heq
          injection h with h
          subst h
          split at heq
          · cases heq
          · split at heq
            · injection heq with heq
              cases heq
            · cases heq
        · split at h
          · cases h
          · injection h with h
            cases h
    · intro hr
      unfold start
      rw [if_pos hr]
  · intro hr
    unfold start
    rw [if_pos hr]

/-- C6 witness: with the transport online and an unfinished task, `start`
fails with `AlreadyRunning` and changes nothing. -/
theorem c6_start_already_running_witness :
    start envOnline hsUnfinished = (hsUnfinished, [], .error .alreadyRunning) :=
  (c6_start_already_running_iff envOnline hsUnfinished).2 rfl

/-- C6 counterexample: a sync task exists and is not finished, but the
transport is offline; `start` does not fail with `AlreadyRunning` — it
reconnects, spawns, and emits `Online`. -/
theorem c6_counterexample :
    hsUnfinished.task = some ⟨false⟩
    ∧ (start envOffline hsUnfinished).2.2 = .ok ()
    ∧ (start envOffline hsUnfinished).2.1 = [Event.online] :=
  ⟨rfl, rfl, rfl⟩

/-- Membership of the native asset in the coinbase phase's changed-asset set
whenever the wallet mined the block with a reward present — before the
already-stored check. -/
theorem coinbaseStep_parl (address : Address) (block : BlockResponse) (topoheight : Nat)
    (st : Storage) (hminer : block.miner.pubkey = address.pubkey)
    (hreward : block.minerReward.isSome = true) :
    PARL_ASSET ∈ (coinbaseStep address block topoheight st).2.2.1 := by
  unfold coinbaseStep
  rw [if_pos (by simp [hminer])]
  rcases hmr : block.minerReward with _ | reward
  · rw [hmr] at hreward
    simp at hreward
  · dsimp only
    split
    · show PARL_ASSET ∈ insertAsset PARL_ASSET []
      exact insertAsset_self _ _
    · show PARL_ASSET ∈ insertAsset PARL_ASSET []
      exact insertAsset_self _ _

/-- C7 (amended): whenever the wallet mined the block and a reward is
present, the native asset is in the returned changed-asset set — regardless
of whether the coinbase entry was already stored.  Only the persistence of
the entry, the changes marker and the `NewTransaction` event are gated on
the already-stored check. -/
theorem c7_parl_in_changed_assets (env : Env) (address : Address) (block : BlockResponse)
    (topoheight : Nat) (st : Storage) (r : List Nat × Option Nat)
    (hminer : block.miner.pubkey = address.pubkey)
    (hreward : block.minerReward.isSome = true)
    (hok : (processBlock env address block topoheight st).res = .ok (some r)) :
    PARL_ASSET ∈ r.1 := by
  unfold processBlock at hok
  split at hok
  · simp at hok
  · dsimp only at hok
    split at hok
    · cases hok
    · rename_i assetsChanged changesStored highestNonce heq
      split at hok
      · simp at hok
      · injection hok with h1
        injection h1 with h2
        subst h2
        exact processTxs_assets_mono env address block.hash topoheight block.transactions
          _ _ _ _ none _ heq PARL_ASSET
          (coinbaseStep_parl address block topoheight st hminer hreward)

/-- C7 witness: re-scanning mined block 500 whose coinbase is already stored,
together with a fresh incoming transfer of asset 8, returns the changed-asset
set `[PARL_ASSET, 8]` — with the native asset in it. -/
theorem c7_parl_in_changed_assets_witness :
    (processBlock envMined walletAddr blockMined 101 stCoinbaseStored).res
      = .ok (some ([PARL_ASSET, 8], none))
    ∧ PARL_ASSET ∈ ([PARL_ASSET, 8] : List Nat) :=
  ⟨rfl, c7_parl_in_changed_assets envMined walletAddr blockMined 101 stCoinbaseStored
    ([PARL_ASSET, 8], none) rfl rfl rfl⟩

/-- C7 counterexample: the coinbase entry of block 500 is already stored (so
it is not re-persisted: the stored entries are exactly the old coinbase and
the new incoming transfer), yet the native asset still appears in the
returned changed-asset set. -/
theorem c7_counterexample :
    stCoinbaseStored.hasTransaction blockMined.hash = true
    ∧ (processBlock envMined walletAddr blockMined 101 stCoinbaseStored).res
        = .ok (some ([PARL_ASSET, 8], none))
    ∧ (processBlock envMined walletAddr blockMined 101 stCoinbaseStored).st.transactions
        = [⟨72, 101, .incoming 3 [⟨8, 9, none⟩]⟩, ⟨500, 9, .coinbase 50⟩] :=
  ⟨rfl, rfl, rfl⟩

/-- Any event that is a `NewTransaction` is not a `BalanceChanged`. -/
theorem Event.not_bc_of_nt (ev : Event) (h : ev.isNewTransaction = true) :
    (!ev.isBalanceChanged) = true := by
  cases ev <;> first | rfl | cases h

/-- C8: the balance-version loop of the Asset Balance Walker, once past the
first (tip) iteration — i.e. entered with `highestVersion = false` — leaves
the stored balance records and the stored nonce unchanged and emits no
`BalanceChanged` event; those iterations only discover transaction history
through the Block Processor. -/
theorem c8_walker_non_tip_frame (env : Env) (address : Address) (asset minT : Nat)
    (bal : Bool) (fuel topo : Nat) (version : BalanceVersion) (processed : List Nat)
    (hn : Option Nat) (st : Storage) :
    (gbtLoop env address asset minT bal fuel false topo version processed hn st []).st.balances
      = st.balances
    ∧ (gbtLoop env address asset minT bal fuel false topo version processed hn st []).st.nonce
      = st.nonce
    ∧ (gbtLoop env address asset minT bal fuel false topo version processed hn st []).events.all
        (fun ev => !ev.isBalanceChanged) = true := by
  rcases gbtLoop_frame env address asset minT bal fuel topo version processed hn st [] with
    ⟨hb, hnn, hev⟩
  refine ⟨hb, hnn, ?_⟩
  rw [List.all_eq_true]
  intro ev hmem
  rcases hev ev hmem with h | h
  · cases h
  · exact Event.not_bc_of_nt ev h

/-- A relevant transfer whose chosen ciphertext fails trial decryption makes
the whole transfer scan fail with that error. -/
theorem scanTransfers_decrypt_error (env : Env) (pk : Nat) (own : Bool) (t : RPCTransfer)
    (rest : List RPCTransfer) (acc : List Nat) (outs : List TransferOut)
    (ins : List TransferIn) (c h : Nat) (e : Err)
    (hrel : (own || t.destination == pk) = true)
    (hdc : env.decompressCommitment t.commitment = some c)
    (hdh : env.decompressHandle (if own then t.senderHandle else t.receiverHandle) = some h)
    (hdec : env.decryptCiphertext c h = .error e) :
    scanTransfers env pk own (t :: rest) acc outs ins = .error e := by
  rw [scanTransfers, if_pos hrel, hdc, hdh]
  dsimp only
  rw [hdec]

/-- C9 (amended): error handling in the Block Processor is asymmetric.  A
commitment or handle decompression failure on a relevant transfer skips only
that transfer (the scan continues on the rest unchanged), while a
trial-decryption failure of a relevant transfer's amount aborts
`process_block` with that error; that error fails the enclosing sync pass
only on the pushed-block path, where the event step propagates it — on the
Asset Balance Walker path `sync_new_blocks` swallows it per asset. -/
theorem c9_decrypt_aborts_block_not_pass :
    (∀ (env : Env) (pk : Nat) (own : Bool) (t : RPCTransfer) (rest : List RPCTransfer)
       (acc : List Nat) (outs : List TransferOut) (ins : List TransferIn),
       (own || t.destination == pk) = true →
       env.decompressCommitment t.commitment = none →
       scanTransfers env pk own (t :: rest) acc outs ins
         = scanTransfers env pk own rest acc outs ins)
    ∧ (∀ (env : Env) (pk : Nat) (own : Bool) (t : RPCTransfer) (rest : List RPCTransfer)
       (acc : List Nat) (outs : List TransferOut) (ins : List TransferIn) (c : Nat),
       (own || t.destination == pk) = true →
       env.decompressCommitment t.commitment = some c →
       env.decompressHandle (if own then t.senderHandle else t.receiverHandle) = none →
       scanTransfers env pk own (t :: rest) acc outs ins
         = scanTransfers env pk own rest acc outs ins)
    ∧ (∀ (env : Env) (st : Storage) (address : Address) (block : BlockResponse)
       (topoheight : Nat) (tx : RPCTransaction) (ts : List RPCTransfer) (t : RPCTransfer)
       (c h : Nat) (e : Err),
       block.miner.mainnet = env.walletMainnet →
       block.miner.pubkey ≠ address.pubkey →
       block.transactions = [tx] →
       tx.data = .transfers (t :: ts) →
       ((tx.source.pubkey == address.pubkey) || t.destination == address.pubkey) = true →
       env.decompressCommitment t.commitment = some c →
       env.decompressHandle (if (tx.source.pubkey == address.pubkey) = true
         then t.senderHandle else t.receiverHandle) = some h →
       env.decryptCiphertext c h = .error e →
       (processBlock env address block topoheight st).res = .error e)
    ∧ (∀ (env : Env) (address : Address) (block : BlockResponse) (topoheight : Nat)
       (st : Storage) (e : Err),
       block.topoheight = some topoheight →
       (processBlock env address block topoheight st).res = .error e →
       (syncEventStep env address (some block) st).res = .error e) := by
  refine ⟨?_, ?_, ?_, ?_⟩
  · intro env pk own t rest acc outs ins hrel hdc
    rw [scanTransfers, if_pos hrel, hdc]
  · intro env pk own t rest acc outs ins c hrel hdc hdh
    rw [scanTransfers, if_pos hrel, hdc, hdh]
  · intro env st address block topoheight tx ts t c h e hnet hminer htxs hdata hrel hdc hdh hdec
    have hcb : coinbaseStep address block topoheight st = (st, [], [], false) := by
      unfold coinbaseStep
      rw [if_neg (by simp [hminer])]
    have hscan : scanTransfers env address.pubkey (tx.source.pubkey == address.pubkey)
        (t :: ts) [] [] [] = .error e :=
      scanTransfers_decrypt_error env address.pubkey _ t ts [] [] [] c h e hrel hdc hdh hdec
    unfold processBlock
    rw [if_neg (by simp [hnet])]
    dsimp only
    rw [htxs, hcb]
    dsimp only
    simp only [processTxs]
    rw [hdata]
    dsimp only
    rw [hscan]
  · intro env address block topoheight st e htopo hperr
    unfold syncEventStep
    dsimp only
    rw [htopo]
    dsimp only
    rw [hperr]

/-- C9 witness: a foreign block whose single transfer to the wallet
decompresses but fails trial decryption aborts `process_block` with the
decryption error, and on the pushed-block path that error propagates to the
event step of `sync`. -/
theorem c9_decrypt_aborts_block_not_pass_witness :
    (processBlock envUndecryptable walletAddr blockUndecryptable 7 emptyStorage).res
      = .error (.decrypt 5)
    ∧ (syncEventStep envUndecryptable walletAddr (some blockUndecryptableEv)
        emptyStorage).res = .error (.decrypt 5) :=
  ⟨c9_decrypt_aborts_block_not_pass.2.2.1 envUndecryptable emptyStorage walletAddr
    blockUndecryptable 7 undecryptableTx [] ⟨1, 8, 30, 31, 32, none⟩ 30 32 (.decrypt 5)
    rfl (by decide) rfl rfl rfl rfl rfl rfl,
  c9_decrypt_aborts_block_not_pass.2.2.2 envUndecryptable walletAddr
    blockUndecryptableEv 5 emptyStorage (.decrypt 5) rfl rfl⟩

/-- C9 counterexample: the block at topoheight 5 fails trial decryption — the
Block Processor returns the decryption error on it — yet the enclosing
`sync` pass, which reaches that block through the Asset Balance Walker,
still returns success and completes normally: the error does not fail the
pass. -/
theorem c9_counterexample :
    (processBlock envDecryptSwallow walletAddr blockUndecryptable 5 stOneAsset).res
      = .error (.decrypt 5)
    ∧ (sync envDecryptSwallow walletAddr none 5 stOneAsset).res = .ok ()
    ∧ (sync envDecryptSwallow walletAddr none 5 stOneAsset).st.syncedTopoheight = 20 :=
  ⟨rfl, rfl, rfl⟩

/-- C10: the supervisor's `block_ordered` handler performs no head-state
reconciliation: it never changes the stored balance records or the stored
nonce, and every event it emits is a `NewTransaction` — the changed-asset set
and owner nonce reported by the Block Processor are discarded. -/
theorem c10_block_ordered_frame (env : Env) (address : Address)
    (eventTopoheight eventBlockHash : Nat) (st : Storage) :
    (handleBlockOrdered env address eventTopoheight eventBlockHash st).st.balances
      = st.balances
    ∧ (handleBlockOrdered env address eventTopoheight eventBlockHash st).st.nonce = st.nonce
    ∧ (handleBlockOrdered env address eventTopoheight eventBlockHash st).events.all
        (fun ev => ev.isNewTransaction) = true := by
  have hp := blockOrderedPhase1_frame eventTopoheight eventBlockHash st
  unfold handleBlockOrdered
  split
  · split
    · exact ⟨hp.1, hp.2.1, rfl⟩
    · rename_i block hblock
      have hfr := processBlock_frame env address block eventTopoheight
        (blockOrderedPhase1 eventTopoheight eventBlockHash st).1
      refine ⟨hfr.1.trans hp.1, hfr.2.1.trans hp.2.1, ?_⟩
      rw [List.all_eq_true]
      intro ev hmem
      exact hfr.2.2 ev hmem
  · exact ⟨hp.1, hp.2.1, rfl⟩

/-- C2 (amended): the `block_ordered` reorg handler (stored hash at nonzero
`r` differs from the event's hash) deletes changes markers strictly above
`r - 1` — on success every remaining changes entry sits at topoheight at most
`r` — but it deletes no transaction entries: every previously stored entry,
in particular any with topoheight above `r`, is still present afterwards
(until a later sync's checkpoint cleanup removes it). -/
theorem c2_block_ordered_keeps_transactions (env : Env) (address : Address)
    (r bh : Nat) (st : Storage) (hsh : Nat)
    (hfound : st.getBlockHashForTopoheight r = some hsh)
    (hcond : (r != 0 && hsh != bh) = true) :
    (∀ e ∈ st.transactions,
        e ∈ (handleBlockOrdered env address r bh st).st.transactions)
    ∧ (∀ c ∈ (handleBlockOrdered env address r bh st).st.changes, c.1 ≤ r) := by
  have hp1 := blockOrderedPhase1_frame r bh st
  have hpc := blockOrderedPhase1_changes r bh st hsh hfound hcond
  unfold handleBlockOrdered
  rw [if_pos hpc.2]
  split
  · constructor
    · intro e he
      rw [hp1.2.2]
      exact he
    · intro c hc
      exact le_trans (hpc.1 c hc) (Nat.sub_le r 1)
  · rename_i block hblock
    constructor
    · intro e he
      apply processBlock_transactions_mono
      rw [hp1.2.2]
      exact he
    · intro c hc
      rcases processBlock_changes_backed env address block r
          (blockOrderedPhase1 r bh st).1 c hc with hmem | ⟨h1, _⟩
      · exact le_trans (hpc.1 c hmem) (Nat.sub_le r 1)
      · exact Nat.le_of_eq h1

/-- C2 witness: in the concrete reorg at topoheight 5, the entry stored at
topoheight 10 survives the handler and every remaining changes entry is at
topoheight at most 5. -/
theorem c2_block_ordered_keeps_transactions_witness :
    txEntryAt10 ∈ (handleBlockOrdered envReorg walletAddr 5 200 stReorg).st.transactions
    ∧ (handleBlockOrdered envReorg walletAddr 5 200 stReorg).st.changes.all
        (fun c => decide (c.1 ≤ 5)) = true := by
  have h := c2_block_ordered_keeps_transactions envReorg walletAddr 5 200 stReorg 100
    rfl (by decide)
  refine ⟨h.1 txEntryAt10 (by decide), ?_⟩
  rw [List.all_eq_true]
  intro c hc
  exact decide_eq_true (h.2 c hc)

/-- C2 counterexample: handling `block_ordered{topoheight = 5, hash = 200}`
with stored hash 100 at topoheight 5 succeeds (a reorg is detected), yet the
transaction entry with topoheight 10 > 5 is still in storage — the handler
deleted no transactions. -/
theorem c2_counterexample :
    stReorg.getBlockHashForTopoheight 5 = some 100
    ∧ (100 : Nat) ≠ 200
    ∧ (handleBlockOrdered envReorg walletAddr 5 200 stReorg).res = .ok ()
    ∧ txEntryAt10 ∈ (handleBlockOrdered envReorg walletAddr 5 200 stReorg).st.transactions
    ∧ txEntryAt10.topoheight = 10 := by
  refine ⟨rfl, by decide, rfl, ?_, rfl⟩
  have hts : (handleBlockOrdered envReorg walletAddr 5 200 stReorg).st.transactions
      = [txEntryAt10] := rfl
  rw [hts]
  exact List.mem_singleton.mpr rfl

/-- C4 (amended): every changes entry the Block Processor creates is at the
scanned topoheight and comes with at least one transaction entry newly
persisted in the same call — but that entry may be stored at its true
executor topoheight, which can differ from the scanned one, so a changes
topoheight need not equal the stored topoheight of any transaction entry. -/
theorem c4_changes_backed_by_new_entry (env : Env) (address : Address)
    (block : BlockResponse) (topoheight : Nat) (st : Storage) :
    ∀ c ∈ (processBlock env address block topoheight st).st.changes,
      c ∈ st.changes ∨ (c.1 = topoheight ∧
        ∃ e, e ∈ (processBlock env address block topoheight st).st.transactions
          ∧ e ∉ st.transactions) :=
  processBlock_changes_backed env address block topoheight st

/-- C4 witness: in the redirect scenario the changes entry `(10, 300)` is at
the scanned topoheight 10 and backed by a newly persisted entry (stored at
executor topoheight 12). -/
theorem c4_changes_backed_by_new_entry_witness :
    (10, 300) ∈ emptyStorage.changes
    ∨ (((10, 300) : Nat × Nat).1 = 10 ∧
        ∃ e, e ∈ (processBlock envRedirect walletAddr blockRedirect 10
          emptyStorage).st.transactions ∧ e ∉ emptyStorage.transactions) :=
  c4_changes_backed_by_new_entry envRedirect walletAddr blockRedirect 10 emptyStorage
    (10, 300) (by decide)

/-- C4 counterexample: processing the block at topoheight 10 whose only
relevant transaction is redirected to executor topoheight 12 succeeds,
marks topoheight 10 as changed, and stores no transaction entry at
topoheight 10 — the changes invariant the claim states is violated by the
Block Processor alone, with no Checkpoint Locator involvement. -/
theorem c4_counterexample :
    (processBlock envRedirect walletAddr blockRedirect 10 emptyStorage).res = .ok none
    ∧ (10, 300) ∈ (processBlock envRedirect walletAddr blockRedirect 10 emptyStorage).st.changes
    ∧ (processBlock envRedirect walletAddr blockRedirect 10
        emptyStorage).st.transactions.all (fun e => e.topoheight != 10) = true := by
  refine ⟨rfl, ?_, rfl⟩
  have hch : (processBlock envRedirect walletAddr blockRedirect 10 emptyStorage).st.changes
      = [(10, 300)] := rfl
  rw [hch]
  exact List.mem_singleton.mpr rfl

/-- C3: a successful `sync` persists the daemon head reported by `get_info`
at the start of the call: the stored synced topoheight equals the daemon
topoheight, the stored top block hash equals the daemon top block hash, and
a `NewTopoHeight` event carrying that topoheight is emitted. -/
theorem c3_sync_persists_daemon_head (env : Env) (address : Address)
    (event : Option BlockResponse) (fuel : Nat) (st : Storage) (info : ChainInfo)
    (hinfo : env.getInfo = .ok info)
    (hok : (sync env address event fuel st).res = .ok ()) :
    (sync env address event fuel st).st.syncedTopoheight = info.topoheight
    ∧ (sync env address event fuel st).st.topBlockHash = some info.topBlockHash
    ∧ Event.newTopoHeight info.topoheight ∈ (sync env address event fuel st).events := by
  simp only [sync] at hok ⊢
  revert hok
  split
  · intro hok
    simp at hok
  · rename_i r dt dh wt sb heq
    have hdt := locate_daemon env st info hinfo _ heq
    split
    · intro hok
      simp at hok
    · split
      · intro hok
        simp at hok
      · split
        · intro hok
          simp at hok
        · intro hok
          have h1 : dt = info.topoheight := hdt.1
          have h2 : dh = info.topBlockHash := hdt.2
          refine ⟨?_, ?_, ?_⟩
          · exact h1
          · show some dh = some info.topBlockHash
            rw [h2]
          · rw [← h1]
            simp

/-- C3 witness: the concrete successful sync against a daemon at topoheight
20 with top block hash 500 ends with exactly that head persisted and the
matching `NewTopoHeight` event emitted. -/
theorem c3_sync_persists_daemon_head_witness :
    (sync envSwallow walletAddr none 5 stTwoAssets).st.syncedTopoheight = 20
    ∧ (sync envSwallow walletAddr none 5 stTwoAssets).st.topBlockHash = some 500
    ∧ Event.newTopoHeight 20 ∈ (sync envSwallow walletAddr none 5 stTwoAssets).events :=
  c3_sync_persists_daemon_head envSwallow walletAddr none 5 stTwoAssets
    ⟨20, 500, none, true⟩ rfl rfl

end ParlWallet
